import Mathlib

/-!
Verification of the two-stage healthcare-facility pipeline.

Stage 2 (`transform_data.py`): parse newline-delimited JSON facility
records, filter those with an accreditation expiring within six months,
write the result back to object storage.

Stage 3 (`stage3_lambda.py`): submit an Athena query, poll to a terminal
state with a bounded attempt budget, archive the result artifact to a
timestamped destination.

Shallow embedding conventions: calendar dates are triples of naturals
compared lexicographically (as Python `datetime.date` does); every call
to `datetime.now()` made by the expiry predicate reads a clock stream
`Nat → Date` indexed by the number of predicate evaluations performed so
far, mirroring the fact that the source re-reads the wall clock on each
call; external collaborators (the JSON decoder, the S3 client, the
Athena client) are parameters supplying their responses.
-/

namespace Pipeline

/-- A calendar date as used by Python `datetime.date`: year, month, day. -/
structure Date where
  year : Nat
  month : Nat
  day : Nat
deriving DecidableEq

/-- Gregorian leap-year rule, as in Python `calendar.isleap`. -/
def isLeap (y : Nat) : Bool :=
  decide ((y % 4 = 0 ∧ y % 100 ≠ 0) ∨ y % 400 = 0)

/-- Number of days in a month, as in `calendar.monthrange`. -/
def daysInMonth (y m : Nat) : Nat :=
  if m = 2 then (if isLeap y then 29 else 28)
  else if m = 4 ∨ m = 6 ∨ m = 9 ∨ m = 11 then 30
  else 31

/-- Lexicographic comparison of dates, as Python compares `date` values. -/
def dateLe (a b : Date) : Bool :=
  decide (a.year < b.year ∨ (a.year = b.year ∧
    (a.month < b.month ∨ (a.month = b.month ∧ a.day ≤ b.day))))

/-- `d + relativedelta(months := n)`: add `n` months, normalising the
month into 1..12 and clamping the day to the length of the target month,
exactly as `dateutil.relativedelta` does. -/
def addMonths (d : Date) (n : Nat) : Date :=
  let t := d.month - 1 + n
  let y := d.year + t / 12
  let m := t % 12 + 1
  ⟨y, m, min d.day (daysInMonth y m)⟩

/-- Value of a decimal digit character, `none` on a non-digit. -/
def digitVal (c : Char) : Option Nat :=
  if c.isDigit then some (c.toNat - 48) else none

/-- `datetime.fromisoformat(s).date()` for the date-only ISO-8601 form
`YYYY-MM-DD`: ten characters, digits in the date positions, dashes as
separators, and a calendar-valid year/month/day (this is the validation
`fromisoformat` performs before constructing the `date`). -/
def parseIsoDate (s : String) : Option Date :=
  match s.data with
  | [y1, y2, y3, y4, h1, m1, m2, h2, d1, d2] =>
    if h1 = '-' ∧ h2 = '-' then
      match digitVal y1, digitVal y2, digitVal y3, digitVal y4,
            digitVal m1, digitVal m2, digitVal d1, digitVal d2 with
      | some a, some b, some c, some d, some e, some f, some g, some h =>
        let y := ((a * 10 + b) * 10 + c) * 10 + d
        let mo := e * 10 + f
        let da := g * 10 + h
        if 1 ≤ y ∧ 1 ≤ mo ∧ mo ≤ 12 ∧ 1 ≤ da ∧ da ≤ daysInMonth y mo
        then some ⟨y, mo, da⟩ else none
      | _, _, _, _, _, _, _, _ => none
    else none
  | _ => none

/-- `check_if_expiring(valid_until)` from `transform_data.py`, with the
value of `datetime.now().date()` at the moment of this call passed as
`now`.  The source returns
`datetime.fromisoformat(valid_until).date() <= now + relativedelta(months=6)`
and catches every exception (missing value, parse failure) as `False`. -/
def check_if_expiring (now : Date) (valid_until : Option String) : Bool :=
  match valid_until with
  | none => false
  | some s =>
    match parseIsoDate s with
    | none => false
    | some d => dateLe d (addMonths now 6)

/-- An accreditation entry: the fields of the raw record that
`filter_expiring_facilities` reads, each possibly absent (`dict.get`). -/
structure Accreditation where
  valid_until : Option String
  accreditation_body : Option String
deriving DecidableEq

/-- A facility record: the fields the filter reads.  A missing
`accreditations` key is `none`; `facility.get("accreditations", [])`
turns it into the empty list. -/
structure Facility where
  facility_name : Option String
  accreditations : Option (List Accreditation)
deriving DecidableEq

/-- `facility.get("accreditations", [])`. -/
def accGet (f : Facility) : List Accreditation :=
  f.accreditations.getD []

/-- The inner `for acc in accreditations` loop of
`filter_expiring_facilities`: scan the accreditations in order, calling
`check_if_expiring` on each; `break` on the first match.  `clock k` is
the wall-clock date read by the `k`-th predicate evaluation of the run
(the source calls `datetime.now()` inside `check_if_expiring`, so each
evaluation re-reads the clock).  Returns whether a match was found and
the updated evaluation counter. -/
def scanAccs (clock : Nat → Date) (k : Nat) : List Accreditation → Bool × Nat
  | [] => (false, k)
  | a :: rest =>
    if check_if_expiring (clock k) a.valid_until then (true, k + 1)
    else scanAccs clock (k + 1) rest

/-- The outer loop of `filter_expiring_facilities`: append each facility
whose accreditation scan found a match, threading the evaluation
counter. -/
def filterAux (clock : Nat → Date) (k : Nat) : List Facility → List Facility × Nat
  | [] => ([], k)
  | f :: rest =>
    let s := scanAccs clock k (accGet f)
    let r := filterAux clock s.2 rest
    (if s.1 then f :: r.1 else r.1, r.2)

/-- `filter_expiring_facilities(facilities)` from `transform_data.py`,
started with a fresh evaluation counter.  The second component is the
total number of `check_if_expiring` evaluations the pass performed. -/
def filter_expiring_facilities (clock : Nat → Date) (facilities : List Facility) :
    List Facility × Nat :=
  filterAux clock 0 facilities

/-- Number of accreditations the inner loop examines for one facility:
everything up to and including the first match, or the whole list when
nothing matches. -/
def scanCost (today : Date) : List Accreditation → Nat
  | [] => 0
  | a :: rest =>
    if check_if_expiring today a.valid_until then 1 else scanCost today rest + 1

/-- The membership test of an accreditation against a fixed cutoff date:
parse `valid_until` and compare to the cutoff.  This is the predicate
the spec describes when it says the six-month cutoff is computed once
per pass. -/
def dateStrLe (valid_until : Option String) (cutoff : Date) : Bool :=
  match valid_until with
  | none => false
  | some s =>
    match parseIsoDate s with
    | none => false
    | some d => dateLe d cutoff

/-- Modelled from the spec: the compute-the-cutoff-once filtering pass
the spec describes ("the 6-month horizon is computed once per filtering
pass"), for comparison with the code's `filter_expiring_facilities`. -/
def filterExpiringOnce (cutoff : Date) (L : List Facility) : List Facility :=
  L.filter (fun f => (accGet f).any fun a => dateStrLe a.valid_until cutoff)

/-- A clock whose date changes between the first and second predicate
evaluation of a pass. -/
def clk2 : Nat → Date :=
  fun n => if n = 0 then ⟨2023, 8, 1⟩ else ⟨2023, 1, 1⟩

/-- A clock frozen at 2023-08-01. -/
def clkAug : Nat → Date :=
  fun _ => ⟨2023, 8, 1⟩

/-- Facility "A" with one accreditation valid until 2024-01-01 (the
worked example of the spec's testable properties 7 and 8). -/
def facA : Facility :=
  ⟨some "A", some [⟨some "2024-01-01", none⟩]⟩

/-- A facility record with no `accreditations` key. -/
def facNoAccs : Facility :=
  ⟨some "B", none⟩

/-- Python `str.splitlines()` restricted to `\n` line boundaries: split
on newlines, with no empty trailing piece for a body that ends in a
newline (and no piece at all for the empty body). -/
def pySplitlines (s : String) : List String :=
  let parts := s.splitOn "\n"
  if parts.getLast? = some "" then parts.dropLast else parts

/-- The loop body of `parse_json_lines`: strip each line, skip empties,
decode the rest, and skip (with the error reported) any line the decoder
rejects.  The decoder `loads` stands for `json.loads`, returning `none`
where the source raises `JSONDecodeError`. -/
def parseLinesAux {α : Type} (loads : String → Option α) : List String → List α
  | [] => []
  | l :: rest =>
    let ls := l.trim
    if ls = "" then parseLinesAux loads rest
    else
      match loads ls with
      | some j => j :: parseLinesAux loads rest
      | none => parseLinesAux loads rest

/-- `parse_json_lines(body)` from `transform_data.py`. -/
def parse_json_lines {α : Type} (loads : String → Option α) (body : String) : List α :=
  parseLinesAux loads (pySplitlines body)

/-- The error cases the stage-2 S3 wrappers catch: `ClientError` and any
other `Exception`. -/
inductive S3Err where
  | clientError (msg : String)
  | otherError (msg : String)
deriving DecidableEq

/-- `get_all_facilities(s3_client)` from `transform_data.py`, with the
client's `get_object` response passed in as `fetched` (`Except.ok body`
for a successful read, `Except.error` where the call raises).  On
success the body is stripped and parsed line by line; on any caught
exception the function logs and returns the empty list. -/
def get_all_facilities {α : Type} (loads : String → Option α)
    (fetched : Except S3Err String) : List α :=
  match fetched with
  | Except.ok body => parse_json_lines loads body.trim
  | Except.error _ => []

/-- `write_to_s3(s3_client, data)` from `transform_data.py`, with the
client's `put_object` outcome passed in as `putResult`.  Both the
`ClientError` and the generic `Exception` branch only log; the function
returns `None` in every case. -/
def write_to_s3 {α : Type} (data : List α) (putResult : Except S3Err Unit) : Unit :=
  match putResult with
  | Except.ok _ => ()
  | Except.error _ => ()

/-- The two error kinds the stage-3 job can raise: `TimeoutError` from
the polling loop and `RuntimeError` from the handler on a non-succeeded
terminal state. -/
inductive Stage3Error where
  | timeoutError (msg : String)
  | runtimeError (msg : String)
deriving DecidableEq

/-- The terminal-state test of the polling loop:
`state in ("SUCCEEDED", "FAILED", "CANCELLED")`. -/
def terminalState (s : String) : Bool :=
  s == "SUCCEEDED" || s == "FAILED" || s == "CANCELLED"

/-- The polling loop of `wait_for_query`: `k` polling attempts have
already happened, `fuel` remain.  `fetch n` is the state string the
`n`-th call to `get_query_execution` reports.  Returns the outcome
together with the total number of state fetches performed. -/
def waitAux (fetch : Nat → String) : Nat → Nat → Except Stage3Error String × Nat
  | k, 0 => (Except.error (Stage3Error.timeoutError "Athena query timed out"), k)
  | k, fuel + 1 =>
    let state := fetch k
    if terminalState state then (Except.ok state, k + 1)
    else waitAux fetch (k + 1) fuel

/-- `wait_for_query(query_execution_id, max_tries, delay)` from
`stage3_lambda.py`.  The inter-attempt `time.sleep(delay)` only spends
wall-clock time and is not modelled. -/
def wait_for_query (fetch : Nat → String) (max_tries : Nat) :
    Except Stage3Error String × Nat :=
  waitAux fetch 0 max_tries

/-- A UTC instant to second precision, as consumed by
`datetime.utcnow().strftime("%Y%m%dT%H%M%SZ")`. -/
structure UtcTime where
  year : Nat
  month : Nat
  day : Nat
  hour : Nat
  minute : Nat
  second : Nat
deriving DecidableEq

/-- Zero-pad a natural to two digits, as `strftime` does for
`%m %d %H %M %S`. -/
def pad2 (n : Nat) : String :=
  if n < 10 then "0" ++ toString n else toString n

/-- Zero-pad a natural to four digits, as `strftime` does for `%Y`. -/
def pad4 (n : Nat) : String :=
  if n < 10 then "000" ++ toString n
  else if n < 100 then "00" ++ toString n
  else if n < 1000 then "0" ++ toString n
  else toString n

/-- `strftime("%Y%m%dT%H%M%SZ")`: the timestamp embedded in the archive
key, at second precision. -/
def strftimeCompact (t : UtcTime) : String :=
  pad4 t.year ++ pad2 t.month ++ pad2 t.day ++ "T" ++
    pad2 t.hour ++ pad2 t.minute ++ pad2 t.second ++ "Z"

/-- `FINAL_RESULTS_BUCKET` from `stage3_lambda.py`. -/
def FINAL_RESULTS_BUCKET : String := "healthcare-facility"

/-- The `FINAL_RESULTS_PREFIX` constant from `stage3_lambda.py` (the
archive key starts with this folder). -/
def finalResultsFolder : String := "transformed/"

/-- Split a character list at every occurrence of the given character
(the pieces do not contain it); an empty list yields one empty piece,
matching how a URL path splits on slashes. -/
def splitOnChar (c : Char) : List Char → List (List Char)
  | [] => [[]]
  | x :: xs =>
    match splitOnChar c xs with
    | [] => [[x]]
    | r :: rs => if x = c then [] :: r :: rs else (x :: r) :: rs

/-- Rejoin pieces with a slash between them (inverse of splitting on a
slash). -/
def joinSlash : List (List Char) → List Char
  | [] => []
  | [x] => x
  | x :: xs => x ++ '/' :: joinSlash xs

/-- `urlparse` applied to an `s3://bucket/key` URL followed by
`path.lstrip("/")`, as `copy_results_to_final_location` does: the first
component is the bucket (netloc), the second the key with leading
slashes removed. -/
def parseS3Url (u : String) : String × String :=
  let chars := u.data
  let rest := if chars.take 5 = ['s', '3', ':', '/', '/'] then chars.drop 5 else chars
  match splitOnChar '/' rest with
  | [] => ("", "")
  | b :: ps =>
    (String.mk b, String.mk ((joinSlash ps).dropWhile (fun c => c = '/')))

/-- One `s3.copy_object` call: source and destination of the archive
copy. -/
structure S3CopyAction where
  srcBucket : String
  srcKey : String
  destBucket : String
  destKey : String
deriving DecidableEq

/-- The environment of one stage-3 invocation: `fetch n` is the query
state reported by the `n`-th `get_query_execution` poll of the submitted
query, `outputLocation` is the `ResultConfiguration.OutputLocation` that
`get_query_execution` reports for it, and `nowUtc` is the value of
`datetime.utcnow()` at archive time. -/
structure Stage3Env where
  fetch : Nat → String
  outputLocation : String
  nowUtc : UtcTime

/-- `copy_results_to_final_location(query_execution_id)` from
`stage3_lambda.py`: resolve the transient output artifact, build the
timestamped destination key, request the copy, and return the fully
qualified destination path.  The copy request it issues is returned
alongside the path. -/
def copy_results_to_final_location (env : Stage3Env) : String × S3CopyAction :=
  let parsed := parseS3Url env.outputLocation
  let timestamp := strftimeCompact env.nowUtc
  let dest_key := finalResultsFolder ++ "state_counts_" ++ timestamp ++ ".csv"
  ("s3://" ++ FINAL_RESULTS_BUCKET ++ "/" ++ dest_key,
    ⟨parsed.1, parsed.2, FINAL_RESULTS_BUCKET, dest_key⟩)

/-- The success payload of `lambda_handler`: `statusCode` plus the
fields serialised into `body` by `json.dumps`. -/
structure Payload where
  statusCode : Nat
  message : String
  result_path : String
deriving DecidableEq

/-- `lambda_handler(event, context)` from `stage3_lambda.py`: poll the
submitted query (budget 20), raise `RuntimeError` embedding the terminal
state when it is not `SUCCEEDED`, otherwise archive and return the
success payload.  The second component lists the `copy_object` calls
performed; a raised error (timeout included) propagates with no copy. -/
def lambda_handler (env : Stage3Env) : Except Stage3Error Payload × List S3CopyAction :=
  match wait_for_query env.fetch 20 with
  | (Except.error e, _) => (Except.error e, [])
  | (Except.ok state, _) =>
    if state = "SUCCEEDED" then
      let r := copy_results_to_final_location env
      (Except.ok ⟨200, "Athena state counts query completed", r.1⟩, [r.2])
    else
      (Except.error (Stage3Error.runtimeError ("Athena query failed with state: " ++ state)), [])

/-- The polled state sequence [RUNNING, RUNNING, SUCCEEDED, ...] of the
spec's example. -/
def seqRRS : Nat → String :=
  fun n => if n < 2 then "RUNNING" else "SUCCEEDED"

/-- A stage-3 environment whose query ends FAILED on the first poll. -/
def envFailed : Stage3Env :=
  ⟨fun _ => "FAILED", "s3://healthcare-facility/athena_results/q1.csv",
    ⟨2023, 8, 1, 12, 0, 0⟩⟩

/-- A stage-3 environment whose query succeeds on the first poll. -/
def envSucc : Stage3Env :=
  ⟨fun _ => "SUCCEEDED", "s3://healthcare-facility/athena_results/q1.csv",
    ⟨2026, 10, 12, 3, 4, 5⟩⟩

end Pipeline

namespace Pipeline

theorem check_eq_dateStrLe (today : Date) (v : Option String) :
    check_if_expiring today v = dateStrLe v (addMonths today 6) := by
  cases v with
  | none => rfl
  | some s =>
    unfold check_if_expiring dateStrLe
    cases parseIsoDate s <;> rfl

theorem scanAccs_const (clock : Nat → Date) (today : Date)
    (hclk : ∀ n, clock n = today) :
    ∀ (accs : List Accreditation) (k : Nat),
      scanAccs clock k accs =
        ((accs.any fun a => check_if_expiring today a.valid_until),
          k + scanCost today accs) := by
  intro accs
  induction accs with
  | nil => intro k; simp [scanAccs, scanCost]
  | cons a rest ih =>
    intro k
    by_cases h : check_if_expiring today a.valid_until = true
    · simp [scanAccs, scanCost, hclk, h]
    · have h2 : check_if_expiring today a.valid_until = false := by
        simpa using h
      simp [scanAccs, scanCost, hclk, h2, ih (k + 1), Prod.ext_iff]
      omega

theorem filterAux_const (clock : Nat → Date) (today : Date)
    (hclk : ∀ n, clock n = today) :
    ∀ (L : List Facility) (k : Nat),
      filterAux clock k L =
        (L.filter (fun f => (accGet f).any fun a => check_if_expiring today a.valid_until),
          k + (L.map fun f => scanCost today (accGet f)).sum) := by
  intro L
  induction L with
  | nil => intro k; simp [filterAux]
  | cons f rest ih =>
    intro k
    simp only [filterAux, scanAccs_const clock today hclk, ih,
      List.filter_cons, List.map_cons, List.sum_cons]
    by_cases h : ((accGet f).any fun a => check_if_expiring today a.valid_until) = true
    · simp only [h, if_true]
      exact Prod.ext rfl (by omega)
    · have h2 : ((accGet f).any fun a => check_if_expiring today a.valid_until) = false := by
        simpa using h
      simp only [h2, if_false, Bool.false_eq_true]
      exact Prod.ext rfl (by omega)

theorem scanCost_firstMatch (today : Date) :
    ∀ accs : List Accreditation,
      (accs.any fun a => check_if_expiring today a.valid_until) = true →
      scanCost today accs =
        (accs.takeWhile fun a => !(check_if_expiring today a.valid_until)).length + 1 := by
  intro accs
  induction accs with
  | nil => simp
  | cons a rest ih =>
    intro h
    by_cases ha : check_if_expiring today a.valid_until = true
    · simp [scanCost, ha, List.takeWhile_cons]
    · have ha2 : check_if_expiring today a.valid_until = false := by simpa using ha
      have hrest : (rest.any fun a => check_if_expiring today a.valid_until) = true := by
        simpa [ha2] using h
      simp [scanCost, ha2, List.takeWhile_cons, ih hrest]

theorem mem_filterAux (clock : Nat → Date) :
    ∀ (L : List Facility) (k : Nat) (x : Facility),
      x ∈ (filterAux clock k L).1 → x ∈ L ∧ accGet x ≠ [] := by
  intro L
  induction L with
  | nil => intro k x hx; simp [filterAux] at hx
  | cons f rest ih =>
    intro k x hx
    simp only [filterAux] at hx
    by_cases h : (scanAccs clock k (accGet f)).1 = true
    · rw [if_pos h] at hx
      rcases List.mem_cons.mp hx with hxf | hx2
      · subst hxf
        refine ⟨List.mem_cons_self x rest, fun hemp => ?_⟩
        rw [hemp] at h
        exact absurd h (by simp [scanAccs])
      · have h3 := ih _ x hx2
        exact ⟨List.mem_cons_of_mem _ h3.1, h3.2⟩
    · rw [if_neg h] at hx
      have h3 := ih _ x hx
      exact ⟨List.mem_cons_of_mem _ h3.1, h3.2⟩

theorem parseLinesAux_eq {α : Type} (loads : String → Option α) :
    ∀ lines : List String,
      parseLinesAux loads lines =
        (((lines.map String.trim).filter fun l => decide (l ≠ "")).filterMap loads) := by
  intro lines
  induction lines with
  | nil => rfl
  | cons l rest ih =>
    by_cases h : l.trim = ""
    · simp [parseLinesAux, h, ih]
    · cases hl : loads l.trim with
      | none => simp [parseLinesAux, h, hl, ih]
      | some j => simp [parseLinesAux, h, hl, ih]

theorem length_filterMap_eq_countP {α β : Type} (f : α → Option β) :
    ∀ l : List α, (l.filterMap f).length = l.countP fun x => (f x).isSome := by
  intro l
  induction l with
  | nil => rfl
  | cons a rest ih =>
    cases h : f a with
    | none => simp [List.filterMap_cons, List.countP_cons, h, ih]
    | some b => simp [List.filterMap_cons, List.countP_cons, h, ih]

/-- C1: the expiry predicate is total (never raises); it returns `false`
on a missing `valid_until`, and on a string it returns `true` exactly
when the string parses as a valid ISO date that is on or before the
current date plus six months. -/
theorem check_if_expiring_correct :
    (∀ now : Date, check_if_expiring now none = false) ∧
    (∀ (now : Date) (s : String),
      check_if_expiring now (some s) = true ↔
        ∃ d : Date, parseIsoDate s = some d ∧ dateLe d (addMonths now 6) = true) := by
  refine ⟨fun _ => rfl, fun now s => ?_⟩
  unfold check_if_expiring
  cases h : parseIsoDate s with
  | none =>
    simp [h]
  | some d =>
    simp [h]

/-- C2: under a wall-clock date that is constant for the duration of the
pass, `filter_expiring_facilities` returns an order-preserving
subsequence of its input containing exactly the facilities with at least
one accreditation satisfying the expiry predicate, and the number of
predicate evaluations it spends on a facility with a match is the
position of the first match plus one (the inner loop breaks there). -/
theorem filter_expiring_facilities_correct (clock : Nat → Date) (today : Date)
    (L : List Facility) (hclk : ∀ n, clock n = today) :
    (filter_expiring_facilities clock L).1.Sublist L ∧
    (filter_expiring_facilities clock L).1 =
      L.filter (fun f => (accGet f).any fun a => check_if_expiring today a.valid_until) ∧
    (filter_expiring_facilities clock L).2 =
      (L.map fun f => scanCost today (accGet f)).sum ∧
    (∀ f : Facility,
      ((accGet f).any fun a => check_if_expiring today a.valid_until) = true →
      scanCost today (accGet f) =
        ((accGet f).takeWhile fun a => !(check_if_expiring today a.valid_until)).length + 1) := by
  have hf := filterAux_const clock today hclk L 0
  unfold filter_expiring_facilities
  rw [hf]
  exact ⟨List.filter_sublist L, rfl, by simp,
    fun f => scanCost_firstMatch today (accGet f)⟩

/-- Witness for C2: with the clock frozen at 2023-08-01, facility A
(valid until 2024-01-01) is kept, matching the spec's worked example. -/
theorem filter_expiring_facilities_correct_witness :
    (∀ n, clkAug n = ⟨2023, 8, 1⟩) ∧
    (filter_expiring_facilities clkAug [facA]).1 =
      List.filter (fun f => (accGet f).any fun a => check_if_expiring ⟨2023, 8, 1⟩ a.valid_until)
        [facA] :=
  ⟨fun _ => rfl,
    (filter_expiring_facilities_correct clkAug ⟨2023, 8, 1⟩ [facA] (fun _ => rfl)).2.1⟩

/-- Counterexample for C3: the code re-reads the wall clock inside every
`check_if_expiring` call, so two identical records in one pass can be
judged against different cutoffs.  With the clock reading 2023-08-01 on
the first evaluation and 2023-01-01 on the second, the pass over two
copies of facility A keeps exactly one of them, while a pass that
computed the cutoff once — from either observed date — would keep both
or neither. -/
theorem filter_cutoff_counterexample :
    (filter_expiring_facilities clk2 [facA, facA]).1 = [facA] ∧
    filterExpiringOnce (addMonths (clk2 0) 6) [facA, facA] = [facA, facA] ∧
    filterExpiringOnce (addMonths (clk2 1) 6) [facA, facA] = [] :=
  ⟨rfl, rfl, rfl⟩

/-- C3 as amended: `check_if_expiring` recomputes the 6-month cutoff
from the wall clock on every predicate evaluation; when the wall-clock
date does not change during the pass, every record is evaluated against
the same cutoff and the pass coincides with the compute-the-cutoff-once
filter of the spec. -/
theorem filter_cutoff_constant_clock (clock : Nat → Date) (today : Date)
    (L : List Facility) (hclk : ∀ n, clock n = today) :
    (filter_expiring_facilities clock L).1 =
      filterExpiringOnce (addMonths today 6) L := by
  unfold filter_expiring_facilities filterExpiringOnce
  rw [filterAux_const clock today hclk L 0]
  simp only [check_eq_dateStrLe]

/-- Witness for C3's amended theorem at the frozen clock 2023-08-01. -/
theorem filter_cutoff_constant_clock_witness :
    (∀ n, clkAug n = ⟨2023, 8, 1⟩) ∧
    (filter_expiring_facilities clkAug [facA]).1 =
      filterExpiringOnce (addMonths ⟨2023, 8, 1⟩ 6) [facA] :=
  ⟨fun _ => rfl,
    filter_cutoff_constant_clock clkAug ⟨2023, 8, 1⟩ [facA] (fun _ => rfl)⟩

/-- C10: a facility whose record lacks the `accreditations` key, or
carries an empty accreditation list, is never included in the output of
`filter_expiring_facilities` (the missing key defaults to the empty
sequence and the inner scan of an empty sequence finds no match), under
any clock. -/
theorem filter_skips_missing_accreditations (clock : Nat → Date) (f : Facility)
    (L : List Facility)
    (h : f.accreditations = none ∨ f.accreditations = some []) :
    f ∉ (filter_expiring_facilities clock L).1 := by
  intro hmem
  apply (mem_filterAux clock L 0 f hmem).2
  rcases h with h | h <;> simp [accGet, h]

/-- C4: `parse_json_lines` returns, in input line order, exactly the
decodings of the non-empty lines that the decoder accepts — one record
per non-empty valid line, with each malformed line skipped (the batch is
never aborted: the function is total); its length is the count K of
lines that decode successfully. -/
theorem parse_json_lines_correct {α : Type} (loads : String → Option α) (body : String) :
    parse_json_lines loads body =
      ((((pySplitlines body).map String.trim).filter fun l => decide (l ≠ "")).filterMap loads) ∧
    (parse_json_lines loads body).length =
      (((pySplitlines body).map String.trim).filter fun l => decide (l ≠ "")).countP
        (fun l => (loads l).isSome) := by
  refine ⟨parseLinesAux_eq loads (pySplitlines body), ?_⟩
  rw [parse_json_lines, parseLinesAux_eq loads (pySplitlines body),
    length_filterMap_eq_countP]

/-- C9: the stage-2 job absorbs storage failures — a failed fetch makes
`get_all_facilities` return the empty list instead of raising, for
either caught exception class, and `write_to_s3` returns `None` (unit)
on every outcome of the put, success or failure. -/
theorem stage2_absorbs_s3_failures {α : Type} (loads : String → Option α) :
    (∀ e : S3Err, get_all_facilities loads (Except.error e) = []) ∧
    (∀ (data : List α) (putResult : Except S3Err Unit),
      write_to_s3 data putResult = ()) :=
  ⟨fun _ => rfl, fun _ _ => rfl⟩

/-- Witness for C10: a record without the `accreditations` key is
excluded from a concrete pass. -/
theorem filter_skips_missing_accreditations_witness :
    (facNoAccs.accreditations = none ∨ facNoAccs.accreditations = some []) ∧
    facNoAccs ∉ (filter_expiring_facilities clkAug [facNoAccs, facA]).1 :=
  ⟨Or.inl rfl,
    filter_skips_missing_accreditations clkAug facNoAccs [facNoAccs, facA] (Or.inl rfl)⟩

theorem waitAux_first_terminal (fetch : Nat → String) :
    ∀ (i fuel k : Nat), i < fuel →
      (∀ j, j < i → terminalState (fetch (k + j)) = false) →
      terminalState (fetch (k + i)) = true →
      waitAux fetch k fuel = (Except.ok (fetch (k + i)), k + i + 1) := by
  intro i
  induction i with
  | zero =>
    intro fuel k hlt hbefore hterm
    cases fuel with
    | zero => omega
    | succ f =>
      rw [Nat.add_zero] at hterm
      simp [waitAux, hterm]
  | succ i ih =>
    intro fuel k hlt hbefore hterm
    cases fuel with
    | zero => omega
    | succ f =>
      have h0 : terminalState (fetch k) = false := by
        have h1 := hbefore 0 (Nat.succ_pos i)
        simpa using h1
      have hb : ∀ j, j < i → terminalState (fetch (k + 1 + j)) = false := by
        intro j hj
        have h1 := hbefore (j + 1) (by omega)
        have heq : k + (j + 1) = k + 1 + j := by omega
        rwa [heq] at h1
      have ht : terminalState (fetch (k + 1 + i)) = true := by
        have heq : k + (i + 1) = k + 1 + i := by omega
        rwa [heq] at hterm
      have hrec := ih f (k + 1) (by omega) hb ht
      have heq : k + 1 + i = k + (i + 1) := by omega
      simp only [waitAux, h0, Bool.false_eq_true, if_false]
      rw [hrec, heq]

theorem waitAux_never_terminal (fetch : Nat → String)
    (hall : ∀ n, terminalState (fetch n) = false) :
    ∀ (fuel k : Nat), waitAux fetch k fuel =
      (Except.error (Stage3Error.timeoutError "Athena query timed out"), k + fuel) := by
  intro fuel
  induction fuel with
  | zero => intro k; simp [waitAux]
  | succ f ih =>
    intro k
    simp only [waitAux, hall k, Bool.false_eq_true, if_false]
    rw [ih (k + 1)]
    exact Prod.ext rfl (by omega)

/-- C5: the polling loop returns on the first terminal state it
observes — if the first terminal state appears on fetch `i` (zero
based) within the attempt budget, `wait_for_query` returns that state
having performed exactly `i + 1` state fetches. -/
theorem wait_for_query_first_terminal (fetch : Nat → String) (max_tries i : Nat)
    (hlt : i < max_tries)
    (hbefore : ∀ j, j < i → terminalState (fetch j) = false)
    (hterm : terminalState (fetch i) = true) :
    wait_for_query fetch max_tries = (Except.ok (fetch i), i + 1) := by
  unfold wait_for_query
  have h := waitAux_first_terminal fetch i max_tries 0 hlt
    (by simpa using hbefore) (by simpa using hterm)
  simpa using h

/-- Witness for C5: on the polled sequence [RUNNING, RUNNING,
SUCCEEDED], the loop performs exactly 3 fetches and returns SUCCEEDED
(budget 20, the handler's default). -/
theorem wait_for_query_first_terminal_witness :
    2 < 20 ∧ wait_for_query seqRRS 20 = (Except.ok "SUCCEEDED", 3) :=
  ⟨by omega,
    wait_for_query_first_terminal seqRRS 20 2 (by omega) (by decide) (by decide)⟩

/-- C6: when every fetch reports RUNNING, a budget of N attempts ends in
the timeout error after exactly N fetches (not before — the fetch count
is exactly N), and the timeout error is a distinct error kind from the
runtime error raised for a FAILED or CANCELLED query. -/
theorem wait_for_query_timeout :
    (∀ N : Nat, wait_for_query (fun _ => "RUNNING") N =
      (Except.error (Stage3Error.timeoutError "Athena query timed out"), N)) ∧
    (∀ m msg : String, Stage3Error.timeoutError m ≠ Stage3Error.runtimeError msg) := by
  constructor
  · intro N
    have h := waitAux_never_terminal (fun _ => "RUNNING") (fun _ => rfl) N 0
    simpa using h
  · intro m msg h
    exact Stage3Error.noConfusion h

/-- C7: when polling ends in a terminal state other than SUCCEEDED, the
handler raises the runtime error with that state embedded in its
message, performs no archive copy, and returns no success payload. -/
theorem lambda_handler_nonsuccess (env : Stage3Env) (s : String)
    (hpoll : (wait_for_query env.fetch 20).1 = Except.ok s)
    (hs : s ≠ "SUCCEEDED") :
    lambda_handler env =
      (Except.error (Stage3Error.runtimeError ("Athena query failed with state: " ++ s)), []) := by
  unfold lambda_handler
  rcases hw : wait_for_query env.fetch 20 with ⟨res, n⟩
  rw [hw] at hpoll
  simp only at hpoll
  subst hpoll
  simp [hs]

/-- Witness for C7: a query that polls FAILED makes the handler raise
the runtime error naming FAILED, with no copy. -/
theorem lambda_handler_nonsuccess_witness :
    (wait_for_query envFailed.fetch 20).1 = Except.ok "FAILED" ∧
    lambda_handler envFailed =
      (Except.error (Stage3Error.runtimeError "Athena query failed with state: FAILED"), []) :=
  ⟨rfl, lambda_handler_nonsuccess envFailed "FAILED" rfl (by decide)⟩

/-- C8: when polling ends SUCCEEDED, the handler copies the result
artifact from the location the query service reports to the destination
key `transformed/state_counts_<UTC-timestamp>.csv` (timestamp at second
precision), and returns statusCode 200 with the success message and the
fully qualified `s3://` destination path. -/
theorem lambda_handler_success (env : Stage3Env)
    (hpoll : (wait_for_query env.fetch 20).1 = Except.ok "SUCCEEDED") :
    lambda_handler env =
      (Except.ok ⟨200, "Athena state counts query completed",
        "s3://" ++ FINAL_RESULTS_BUCKET ++ "/" ++
          (finalResultsFolder ++ "state_counts_" ++ strftimeCompact env.nowUtc ++ ".csv")⟩,
        [⟨(parseS3Url env.outputLocation).1, (parseS3Url env.outputLocation).2,
          FINAL_RESULTS_BUCKET,
          finalResultsFolder ++ "state_counts_" ++ strftimeCompact env.nowUtc ++ ".csv"⟩]) := by
  unfold lambda_handler
  rcases hw : wait_for_query env.fetch 20 with ⟨res, n⟩
  rw [hw] at hpoll
  simp only at hpoll
  subst hpoll
  simp [copy_results_to_final_location]

/-- Witness for C8: a successful query whose artifact sits at
`s3://healthcare-facility/athena_results/q1.csv`, archived at
2026-10-12 03:04:05 UTC. -/
theorem lambda_handler_success_witness :
    (wait_for_query envSucc.fetch 20).1 = Except.ok "SUCCEEDED" ∧
    lambda_handler envSucc =
      (Except.ok ⟨200, "Athena state counts query completed",
        "s3://healthcare-facility/transformed/state_counts_20261012T030405Z.csv"⟩,
        [⟨"healthcare-facility", "athena_results/q1.csv", "healthcare-facility",
          "transformed/state_counts_20261012T030405Z.csv"⟩]) := by
  refine ⟨rfl, ?_⟩
  have h := lambda_handler_success envSucc rfl
  rw [h]
  exact Prod.ext (congrArg Except.ok (by decide)) (by decide)

end Pipeline
